import Mathlib

/-!
Verification of the `pkg/cfg` slice of saml2aws: the `IDPAccount` data model
with its defaulting and validation rules, and the `ConfigManager` persistent
store that reads and writes named account sections of a single configuration
file.

The ini file library (`gopkg.in/ini.v1`) and the home-directory resolver
(`github.com/mitchellh/go-homedir`) are external collaborators, out of scope
of the repository slice; they are modelled at the interface boundary the spec
gives for them (section 6): an ini document is an ordered association list of
named sections, a section an ordered association list of keys to typed values,
`ReflectFrom` writes every struct field under its fixed key (replace-or-append
per key), `MapTo` overlays any value present in the section onto the target
struct, and `homedir.Expand` replaces a leading tilde by the home directory,
failing exactly when the home directory cannot be determined.  Go's
`url.Parse` is likewise external and is abstracted as a predicate
`parse : String → Bool` over which all statements quantify.
-/

/-- Model of the Go struct `IDPAccount` (pkg/cfg/cfg.go).  Field order and
names follow the source; `int` fields become `Int`. -/
structure IDPAccount where
  appID : String
  url : String
  username : String
  provider : String
  mfa : String
  skipVerify : Bool
  timeout : Int
  amazonWebservicesURN : String
  sessionDuration : Int
  profile : String
  subdomain : String
  roleARN : String
deriving DecidableEq, Repr

/-- Model of the constant `DefaultConfigPath`. -/
def DefaultConfigPath : String := "~/.saml2aws"

/-- Model of the constant `DefaultAmazonWebservicesURN`. -/
def DefaultAmazonWebservicesURN : String := "urn:amazon:webservices"

/-- Model of the constant `DefaultSessionDuration`. -/
def DefaultSessionDuration : Int := 3600

/-- Model of the constant `DefaultProfile`. -/
def DefaultProfile : String := "saml"

/-- Model of `NewIDPAccount`: the defaulted account, with `AmazonWebservicesURN`,
`SessionDuration` and `Profile` at their defaults and every other field at its
zero value. -/
def NewIDPAccount : IDPAccount :=
  { appID := ""
    url := ""
    username := ""
    provider := ""
    mfa := ""
    skipVerify := false
    timeout := 0
    amazonWebservicesURN := DefaultAmazonWebservicesURN
    sessionDuration := DefaultSessionDuration
    profile := DefaultProfile
    subdomain := ""
    roleARN := "" }

/-- Model of the Go method `IDPAccount.String`: a `fmt.Sprintf` over a fixed
multi-line template; the `AppID`/`Subdomain` block is included exactly when the
provider is `OneLogin`.  `%v` on a `bool` prints `true`/`false`, `%d` on an
`int` prints the decimal value. -/
def IDPAccountString (ia : IDPAccount) : String :=
  let appID : String :=
    if ia.provider = "OneLogin" then
      "\n  AppID: " ++ ia.appID ++ "\n  Subdomain: " ++ ia.subdomain
    else ""
  "account \x7b" ++ appID
    ++ "\n  URL: " ++ ia.url
    ++ "\n  Username: " ++ ia.username
    ++ "\n  Provider: " ++ ia.provider
    ++ "\n  MFA: " ++ ia.mfa
    ++ "\n  SkipVerify: " ++ (if ia.skipVerify then "true" else "false")
    ++ "\n  AmazonWebservicesURN: " ++ ia.amazonWebservicesURN
    ++ "\n  SessionDuration: " ++ toString ia.sessionDuration
    ++ "\n  Profile: " ++ ia.profile
    ++ "\n  RoleARN: " ++ ia.roleARN
    ++ "\n\x7d"

/-- The checks of `IDPAccount.Validate` that follow the provider-specific
`OneLogin` block in the source (URL, provider, MFA, profile). -/
def validateCommon (parse : String → Bool) (ia : IDPAccount) : Option String :=
  if ia.url = "" then some "URL empty in idp account"
  else if parse ia.url = false then some "URL parse failed"
  else if ia.provider = "" then some "Provider empty in idp account"
  else if ia.mfa = "" then some "MFA empty in idp account"
  else if ia.profile = "" then some "Profile empty in idp account"
  else none

/-- Model of the Go method `IDPAccount.Validate`: `none` is success, `some msg`
is the error message of the first failed check.  `parse` abstracts the success
of the external `url.Parse`. -/
def IDPAccount.Validate (ia : IDPAccount) (parse : String → Bool) : Option String :=
  if ia.provider = "OneLogin" then
    if ia.appID = "" then some "app ID empty in idp account"
    else if ia.subdomain = "" then some "subdomain empty in idp account"
    else validateCommon parse ia
  else validateCommon parse ia

/-- Modelled from the spec: the seven ordered validation rules of section 4.1
as a flat first-match list, to be compared with the source's `Validate`. -/
def validateSpecRules (parse : String → Bool) (ia : IDPAccount) : Option String :=
  if ia.provider = "OneLogin" ∧ ia.appID = "" then some "app ID empty in idp account"
  else if ia.provider = "OneLogin" ∧ ia.subdomain = "" then some "subdomain empty in idp account"
  else if ia.url = "" then some "URL empty in idp account"
  else if parse ia.url = false then some "URL parse failed"
  else if ia.provider = "" then some "Provider empty in idp account"
  else if ia.mfa = "" then some "MFA empty in idp account"
  else if ia.profile = "" then some "Profile empty in idp account"
  else none

/-- A value stored under a key of an ini section, typed at the interface
boundary of the opaque key-value store collaborator. -/
inductive IniValue where
  | str : String → IniValue
  | int : Int → IniValue
  | bool : Bool → IniValue
deriving DecidableEq, Repr

/-- An ini section: an ordered association list of keys to values. -/
abbrev IniSection := List (String × IniValue)

/-- An ini document: an ordered association list of section names to sections. -/
abbrev IniFile := List (String × IniSection)

/-- Set key `k` to value `v` in a section: replace the first binding of `k`,
or append a fresh binding when `k` is absent. -/
def setKey : IniSection → String → IniValue → IniSection
  | [], k, v => [(k, v)]
  | (k0, v0) :: rest, k, v =>
    if k0 = k then (k, v) :: rest else (k0, v0) :: setKey rest k v

/-- Look up the first binding of key `k` in a section. -/
def lookupKey : IniSection → String → Option IniValue
  | [], _ => none
  | (k0, v0) :: rest, k => if k0 = k then some v0 else lookupKey rest k

/-- Read key `k` as a string, defaulting to `d` when absent or not a string. -/
def getStr (s : IniSection) (k : String) (d : String) : String :=
  match lookupKey s k with
  | some (IniValue.str v) => v
  | _ => d

/-- Read key `k` as an integer, defaulting to `d` when absent or not an integer. -/
def getInt (s : IniSection) (k : String) (d : Int) : Int :=
  match lookupKey s k with
  | some (IniValue.int v) => v
  | _ => d

/-- Read key `k` as a boolean, defaulting to `d` when absent or not a boolean. -/
def getBool (s : IniSection) (k : String) (d : Bool) : Bool :=
  match lookupKey s k with
  | some (IniValue.bool v) => v
  | _ => d

/-- Model of `Section.MapTo` at the spec's interface boundary: overlay every
value present in the section onto the account `a`, under the fixed field-key
table of the `IDPAccount` struct tags; absent keys keep the existing field. -/
def mapTo (s : IniSection) (a : IDPAccount) : IDPAccount :=
  { appID := getStr s "app_id" a.appID
    url := getStr s "url" a.url
    username := getStr s "username" a.username
    provider := getStr s "provider" a.provider
    mfa := getStr s "mfa" a.mfa
    skipVerify := getBool s "skip_verify" a.skipVerify
    timeout := getInt s "timeout" a.timeout
    amazonWebservicesURN := getStr s "aws_urn" a.amazonWebservicesURN
    sessionDuration := getInt s "aws_session_duration" a.sessionDuration
    profile := getStr s "aws_profile" a.profile
    subdomain := getStr s "subdomain" a.subdomain
    roleARN := getStr s "role_arn" a.roleARN }

/-- Model of `Section.ReflectFrom` at the spec's interface boundary: write every
field of the account into the section under its fixed key, in struct field
order, replacing any existing binding of that key. -/
def reflectFrom (s : IniSection) (a : IDPAccount) : IniSection :=
  let s1 := setKey s "app_id" (IniValue.str a.appID)
  let s2 := setKey s1 "url" (IniValue.str a.url)
  let s3 := setKey s2 "username" (IniValue.str a.username)
  let s4 := setKey s3 "provider" (IniValue.str a.provider)
  let s5 := setKey s4 "mfa" (IniValue.str a.mfa)
  let s6 := setKey s5 "skip_verify" (IniValue.bool a.skipVerify)
  let s7 := setKey s6 "timeout" (IniValue.int a.timeout)
  let s8 := setKey s7 "aws_urn" (IniValue.str a.amazonWebservicesURN)
  let s9 := setKey s8 "aws_session_duration" (IniValue.int a.sessionDuration)
  let s10 := setKey s9 "aws_profile" (IniValue.str a.profile)
  let s11 := setKey s10 "subdomain" (IniValue.str a.subdomain)
  setKey s11 "role_arn" (IniValue.str a.roleARN)

/-- Look up a section by name in a document. -/
def lookupSection : IniFile → String → Option IniSection
  | [], _ => none
  | (n0, s0) :: rest, n => if n0 = n then some s0 else lookupSection rest n

/-- Model of `File.Section(name)` as used on the read path: the named section,
or the empty section when absent. -/
def getSection (cfg : IniFile) (n : String) : IniSection :=
  (lookupSection cfg n).getD []

/-- Replace the first section named `n`, or append a fresh one when absent
(the get-or-create behaviour of `File.NewSection` followed by mutation). -/
def setSection : IniFile → String → IniSection → IniFile
  | [], n, s => [(n, s)]
  | (n0, s0) :: rest, n, s =>
    if n0 = n then (n, s) :: rest else (n0, s0) :: setSection rest n s

/-- The names of the sections of a document, in order. -/
def sectionNames (cfg : IniFile) : List String := cfg.map Prod.fst

/-- The error kinds of the cfg package: a validation failure wrapping the
violated-rule message, an I/O failure, and the not-found sentinel
`ErrIdpAccountNotFound`. -/
inductive CfgError where
  | validationError : String → CfgError
  | ioError : String → CfgError
  | notFound : CfgError
deriving DecidableEq, Repr

/-- Model of the package-level sentinel `ErrIdpAccountNotFound`. -/
def ErrIdpAccountNotFound : CfgError := CfgError.notFound

/-- Model of `IsErrIdpAccountNotFound`: Go compares the error to the sentinel
by identity; `none` models a nil error. -/
def IsErrIdpAccountNotFound (err : Option CfgError) : Bool :=
  decide (err = some ErrIdpAccountNotFound)

/-- Model of the `ConfigManager` struct: a handle bound to a resolved path. -/
structure ConfigManager where
  configPath : String
deriving DecidableEq, Repr

/-- Whether a path starts with a tilde (go-homedir inspects the first byte of
the path). -/
def hasTilde (path : String) : Bool :=
  match path.data with
  | [] => false
  | c :: _ => c = '~'

/-- Modelled from the spec (section 6 collaborator boundary): `homedir.Expand`
replaces a leading tilde of `path` by the home directory, and fails exactly
when the path needs the home directory and it cannot be determined; `home` is
the resolver's answer, `none` meaning resolution fails. -/
def homedirExpand (home : Option String) (path : String) : Except CfgError String :=
  if hasTilde path then
    match home with
    | none => Except.error (CfgError.ioError "unable to determine home directory")
    | some h => Except.ok (h ++ path.drop 1)
  else Except.ok path

/-- Model of `NewConfigManager`: an empty path falls back to
`DefaultConfigPath`, then the path is tilde-expanded and the manager bound to
the result. -/
def NewConfigManager (home : Option String) (configFile : String) :
    Except CfgError ConfigManager :=
  let cf := if configFile = "" then DefaultConfigPath else configFile
  match homedirExpand home cf with
  | Except.error e => Except.error e
  | Except.ok p => Except.ok { configPath := p }

/-- Model of `ini.LoadSources` with `Loose: true` on the manager's path: the
file's document when it exists, the empty document when the file is missing
(`none`). -/
def loadSourcesLoose (st : Option IniFile) : IniFile := st.getD []

/-- Model of `ConfigManager.SaveIDPAccount` as a function of the file state
`st`: validate, load loosely, get-or-create the named section, write every
field into it, and return the rewritten document; a validation failure is
returned before any mutation. -/
def SaveIDPAccount (parse : String → Bool) (st : Option IniFile)
    (idpAccountName : String) (account : IDPAccount) :
    Except CfgError (Option IniFile) :=
  match account.Validate parse with
  | some msg => Except.error (CfgError.validationError msg)
  | none =>
    let cfg := loadSourcesLoose st
    let sec := reflectFrom (getSection cfg idpAccountName) account
    Except.ok (some (setSection cfg idpAccountName sec))

/-- The file state after running `SaveIDPAccount`: the rewritten document on
success, the unchanged state on failure (nothing was written). -/
def stateAfterSave (parse : String → Bool) (st : Option IniFile)
    (idpAccountName : String) (account : IDPAccount) : Option IniFile :=
  match SaveIDPAccount parse st idpAccountName account with
  | Except.ok st2 => st2
  | Except.error _ => st

/-- Model of `readAccount`: overlay the named section (empty when absent) onto
a freshly defaulted account. -/
def readAccount (idpAccountName : String) (cfg : IniFile) : IDPAccount :=
  mapTo (getSection cfg idpAccountName) NewIDPAccount

/-- Model of `ConfigManager.LoadIDPAccount` as a function of the file state. -/
def LoadIDPAccount (st : Option IniFile) (idpAccountName : String) : IDPAccount :=
  readAccount idpAccountName (loadSourcesLoose st)

/-- Model of `ConfigManager.LoadVerifyIDPAccount`: load, then return the
not-found sentinel when the result is structurally equal to a freshly
defaulted account. -/
def LoadVerifyIDPAccount (st : Option IniFile) (idpAccountName : String) :
    Except CfgError IDPAccount :=
  let account := LoadIDPAccount st idpAccountName
  if account = NewIDPAccount then Except.error ErrIdpAccountNotFound
  else Except.ok account

theorem strAppend_assoc (a b c : String) : a ++ b ++ c = a ++ (b ++ c) := by
  cases a; cases b; cases c
  show String.mk _ = String.mk _
  simp [String.append]

theorem lookupKey_setKey_same (s : IniSection) (k : String) (v : IniValue) :
    lookupKey (setKey s k v) k = some v := by
  induction s with
  | nil => simp [setKey, lookupKey]
  | cons hd tl ih =>
    obtain ⟨k0, v0⟩ := hd
    by_cases h : k0 = k <;> simp [setKey, lookupKey, h, ih]

theorem lookupKey_setKey_ne (s : IniSection) (k q : String) (v : IniValue)
    (h : k ≠ q) : lookupKey (setKey s k v) q = lookupKey s q := by
  induction s with
  | nil => simp [setKey, lookupKey, h]
  | cons hd tl ih =>
    obtain ⟨k0, v0⟩ := hd
    by_cases h0 : k0 = k <;> simp [setKey, lookupKey, h0, h, ih]

theorem mapTo_reflectFrom (s : IniSection) (a d : IDPAccount) :
    mapTo (reflectFrom s a) d = a := by
  simp [mapTo, reflectFrom, getStr, getInt, getBool,
    lookupKey_setKey_same, lookupKey_setKey_ne]

theorem lookupSection_setSection_same (cfg : IniFile) (n : String) (s : IniSection) :
    lookupSection (setSection cfg n s) n = some s := by
  induction cfg with
  | nil => simp [setSection, lookupSection]
  | cons hd tl ih =>
    obtain ⟨n0, s0⟩ := hd
    by_cases h : n0 = n <;> simp [setSection, lookupSection, h, ih]

theorem getSection_setSection_same (cfg : IniFile) (n : String) (s : IniSection) :
    getSection (setSection cfg n s) n = s := by
  simp [getSection, lookupSection_setSection_same]

theorem sectionNames_cons (n0 : String) (s0 : IniSection) (l : IniFile) :
    sectionNames ((n0, s0) :: l) = n0 :: sectionNames l := rfl

theorem sectionNames_setSection (cfg : IniFile) (n : String) (s : IniSection) :
    sectionNames (setSection cfg n s) =
      if n ∈ sectionNames cfg then sectionNames cfg else sectionNames cfg ++ [n] := by
  induction cfg with
  | nil => simp [setSection, sectionNames]
  | cons hd tl ih =>
    obtain ⟨n0, s0⟩ := hd
    by_cases h : n0 = n
    · subst h
      simp [setSection, sectionNames_cons]
    · simp only [setSection, if_neg h, sectionNames_cons, ih, List.mem_cons]
      by_cases hm : n ∈ sectionNames tl
      · simp [hm]
      · simp [hm, Ne.symm h]

theorem mem_sectionNames_setSection (cfg : IniFile) (n : String) (s : IniSection) :
    n ∈ sectionNames (setSection cfg n s) := by
  rw [sectionNames_setSection]
  by_cases hm : n ∈ sectionNames cfg <;> simp [hm]

/-- A concrete valid (non-OneLogin) account, used as input of the witnesses. -/
def acctPing : IDPAccount :=
  { NewIDPAccount with url := "https://id.example.com", provider := "Ping", mfa := "Auto" }

/-- C6: `NewIDPAccount` always succeeds with no inputs and yields
`awsURN = "urn:amazon:webservices"`, `sessionDuration = 3600`,
`profile = "saml"`, and every other field at its zero value. -/
theorem newIDPAccount_defaults :
    NewIDPAccount.amazonWebservicesURN = "urn:amazon:webservices" ∧
    NewIDPAccount.sessionDuration = 3600 ∧
    NewIDPAccount.profile = "saml" ∧
    NewIDPAccount.appID = "" ∧
    NewIDPAccount.url = "" ∧
    NewIDPAccount.username = "" ∧
    NewIDPAccount.provider = "" ∧
    NewIDPAccount.mfa = "" ∧
    NewIDPAccount.subdomain = "" ∧
    NewIDPAccount.roleARN = "" ∧
    NewIDPAccount.skipVerify = false ∧
    NewIDPAccount.timeout = 0 :=
  ⟨rfl, rfl, rfl, rfl, rfl, rfl, rfl, rfl, rfl, rfl, rfl, rfl⟩

/-- C2: for every account and every behaviour of the external URL parser,
`Validate` returns exactly the first violated rule of the spec's ordered rule
list (`validateSpecRules`), with the spec's messages; in particular a
`OneLogin` account with empty `appID` fails with the app-ID-empty rule
regardless of every other field. -/
theorem validate_first_violated_rule (parse : String → Bool) (ia : IDPAccount) :
    ia.Validate parse = validateSpecRules parse ia ∧
    (ia.provider = "OneLogin" → ia.appID = "" →
      ia.Validate parse = some "app ID empty in idp account") := by
  constructor
  · unfold IDPAccount.Validate validateSpecRules validateCommon
    by_cases h1 : ia.provider = "OneLogin" <;>
      by_cases h2 : ia.appID = "" <;>
        by_cases h3 : ia.subdomain = "" <;>
          simp [h1, h2, h3]
  · intro h1 h2
    simp [IDPAccount.Validate, h1, h2]

theorem validate_first_violated_rule_witness :
    IDPAccount.Validate
      { NewIDPAccount with provider := "OneLogin", url := "https://x", mfa := "Auto",
                           subdomain := "acme" }
      (fun _ => true) = some "app ID empty in idp account" :=
  (validate_first_violated_rule (fun _ => true)
    { NewIDPAccount with provider := "OneLogin", url := "https://x", mfa := "Auto",
                         subdomain := "acme" }).2 rfl rfl

/-- C4: saving an account that fails validation returns a validation error
wrapping the violated-rule message, and the file state is unchanged. -/
theorem save_invalid_no_mutation (parse : String → Bool) (st : Option IniFile)
    (n : String) (account : IDPAccount) (msg : String)
    (h : account.Validate parse = some msg) :
    SaveIDPAccount parse st n account = Except.error (CfgError.validationError msg) ∧
    stateAfterSave parse st n account = st := by
  constructor
  · simp [SaveIDPAccount, h]
  · simp [stateAfterSave, SaveIDPAccount, h]

theorem save_invalid_no_mutation_witness :
    SaveIDPAccount (fun _ => true)
        (some [("work", [("url", IniValue.str "https://id.example.com")])])
        "work" { acctPing with mfa := "" }
      = Except.error (CfgError.validationError "MFA empty in idp account") ∧
    stateAfterSave (fun _ => true)
        (some [("work", [("url", IniValue.str "https://id.example.com")])])
        "work" { acctPing with mfa := "" }
      = some [("work", [("url", IniValue.str "https://id.example.com")])] :=
  save_invalid_no_mutation (fun _ => true)
    (some [("work", [("url", IniValue.str "https://id.example.com")])])
    "work" { acctPing with mfa := "" } "MFA empty in idp account" (by decide)

/-- C5: loading a name that was never saved, whether because the file is
missing or because no section of that name exists, does not fail and returns
exactly the freshly defaulted account. -/
theorem load_never_saved (st : Option IniFile) (n : String)
    (h : st = none ∨ lookupSection (loadSourcesLoose st) n = none) :
    LoadIDPAccount st n = NewIDPAccount := by
  have hsec : getSection (loadSourcesLoose st) n = [] := by
    rcases h with h | h
    · subst h; rfl
    · simp [getSection, h]
  show mapTo (getSection (loadSourcesLoose st) n) NewIDPAccount = NewIDPAccount
  rw [hsec]
  decide

theorem load_never_saved_witness :
    LoadIDPAccount none "work" = NewIDPAccount ∧
    LoadIDPAccount (some [("other", [("url", IniValue.str "https://x")])]) "work"
      = NewIDPAccount :=
  ⟨load_never_saved none "work" (Or.inl rfl),
   load_never_saved (some [("other", [("url", IniValue.str "https://x")])]) "work"
     (Or.inr (by decide))⟩

/-- C3: `LoadVerifyIDPAccount` returns the not-found sentinel exactly when the
account `LoadIDPAccount` would return equals the freshly defaulted account (so
both for never-saved names and for stored sections whose values all coincide
with the defaults), and returns the loaded account otherwise; the predicate
`IsErrIdpAccountNotFound` holds for the sentinel only, not for nil and not for
any other error value. -/
theorem loadVerify_not_found_iff (st : Option IniFile) (n : String) :
    (LoadVerifyIDPAccount st n = Except.error ErrIdpAccountNotFound ↔
      LoadIDPAccount st n = NewIDPAccount) ∧
    (LoadIDPAccount st n ≠ NewIDPAccount →
      LoadVerifyIDPAccount st n = Except.ok (LoadIDPAccount st n)) ∧
    IsErrIdpAccountNotFound (some ErrIdpAccountNotFound) = true ∧
    IsErrIdpAccountNotFound none = false ∧
    (∀ e : CfgError, e ≠ ErrIdpAccountNotFound →
      IsErrIdpAccountNotFound (some e) = false) := by
  refine ⟨?_, ?_, rfl, rfl, ?_⟩
  · unfold LoadVerifyIDPAccount
    by_cases h : LoadIDPAccount st n = NewIDPAccount <;> simp [h]
  · intro h
    simp [LoadVerifyIDPAccount, h]
  · intro e he
    simp [IsErrIdpAccountNotFound, he]

theorem loadVerify_not_found_iff_witness :
    LoadVerifyIDPAccount (some [("dup", reflectFrom [] NewIDPAccount)]) "dup"
      = Except.error ErrIdpAccountNotFound ∧
    LoadVerifyIDPAccount (some [("work", reflectFrom [] acctPing)]) "work"
      = Except.ok (LoadIDPAccount (some [("work", reflectFrom [] acctPing)]) "work") ∧
    IsErrIdpAccountNotFound (some (CfgError.ioError "boom")) = false :=
  ⟨(loadVerify_not_found_iff (some [("dup", reflectFrom [] NewIDPAccount)]) "dup").1.mpr
     (by decide),
   (loadVerify_not_found_iff (some [("work", reflectFrom [] acctPing)]) "work").2.1
     (by decide),
   (loadVerify_not_found_iff none "work").2.2.2.2 (CfgError.ioError "boom") (by decide)⟩

/-- C1: for every account that passes `Validate` and every account name,
`SaveIDPAccount` succeeds and a subsequent `LoadIDPAccount` of the same name
returns an account equal field-by-field to the saved one. -/
theorem save_load_roundtrip (parse : String → Bool) (st : Option IniFile)
    (n : String) (P : IDPAccount) (h : P.Validate parse = none) :
    ∃ cfg2, SaveIDPAccount parse st n P = Except.ok (some cfg2) ∧
      LoadIDPAccount (some cfg2) n = P := by
  refine ⟨setSection (loadSourcesLoose st) n
    (reflectFrom (getSection (loadSourcesLoose st) n) P), ?_, ?_⟩
  · simp [SaveIDPAccount, h]
  · show mapTo (getSection (loadSourcesLoose (some _)) n) NewIDPAccount = P
    rw [loadSourcesLoose, Option.getD_some, getSection_setSection_same, mapTo_reflectFrom]

theorem save_load_roundtrip_witness :
    IDPAccount.Validate acctPing (fun _ => true) = none ∧
    ∃ cfg2, SaveIDPAccount (fun _ => true) none "test" acctPing = Except.ok (some cfg2) ∧
      LoadIDPAccount (some cfg2) "test" = acctPing :=
  ⟨by decide, save_load_roundtrip (fun _ => true) none "test" acctPing (by decide)⟩

/-- C8: saving a valid account twice in a row succeeds, a subsequent load
returns the account, and the second save replaces the named section rather
than appending a duplicate: the section names of the file are unchanged by
the second save. -/
theorem save_idempotent (parse : String → Bool) (st : Option IniFile)
    (n : String) (P : IDPAccount) (h : P.Validate parse = none) :
    ∃ cfg1 cfg2, SaveIDPAccount parse st n P = Except.ok (some cfg1) ∧
      SaveIDPAccount parse (some cfg1) n P = Except.ok (some cfg2) ∧
      LoadIDPAccount (some cfg2) n = P ∧
      sectionNames cfg2 = sectionNames cfg1 := by
  set cfg1 := setSection (loadSourcesLoose st) n
    (reflectFrom (getSection (loadSourcesLoose st) n) P) with hcfg1
  refine ⟨cfg1, setSection cfg1 n (reflectFrom (getSection cfg1 n) P), ?_, ?_, ?_, ?_⟩
  · simp [SaveIDPAccount, h, hcfg1]
  · simp [SaveIDPAccount, h, loadSourcesLoose]
  · show mapTo (getSection (loadSourcesLoose (some _)) n) NewIDPAccount = P
    rw [loadSourcesLoose, Option.getD_some, getSection_setSection_same, mapTo_reflectFrom]
  · rw [sectionNames_setSection,
      if_pos (hcfg1 ▸ mem_sectionNames_setSection (loadSourcesLoose st) n
        (reflectFrom (getSection (loadSourcesLoose st) n) P))]

theorem save_idempotent_witness :
    ∃ cfg1 cfg2,
      SaveIDPAccount (fun _ => true) none "test" acctPing = Except.ok (some cfg1) ∧
      SaveIDPAccount (fun _ => true) (some cfg1) "test" acctPing = Except.ok (some cfg2) ∧
      LoadIDPAccount (some cfg2) "test" = acctPing ∧
      sectionNames cfg2 = sectionNames cfg1 :=
  save_idempotent (fun _ => true) none "test" acctPing (by decide)

/-- C10: every account that passes `Validate` differs from the freshly
defaulted account, so after a successful save of a validated account,
`LoadVerifyIDPAccount` does not return the not-found sentinel but the saved
account itself. -/
theorem validated_profile_found (parse : String → Bool) (st : Option IniFile)
    (n : String) (P : IDPAccount) (h : P.Validate parse = none) :
    P ≠ NewIDPAccount ∧
    (∀ st2, SaveIDPAccount parse st n P = Except.ok st2 →
      LoadVerifyIDPAccount st2 n = Except.ok P) := by
  have hne : P ≠ NewIDPAccount := by
    intro he
    rw [he] at h
    simp [IDPAccount.Validate, validateCommon, NewIDPAccount] at h
  refine ⟨hne, ?_⟩
  intro st2 hsave
  have hst2 : st2 = some (setSection (loadSourcesLoose st) n
      (reflectFrom (getSection (loadSourcesLoose st) n) P)) := by
    have := (by simpa [SaveIDPAccount, h] using hsave :
      some (setSection (loadSourcesLoose st) n
        (reflectFrom (getSection (loadSourcesLoose st) n) P)) = st2)
    exact this.symm
  subst hst2
  have hload : LoadIDPAccount (some (setSection (loadSourcesLoose st) n
      (reflectFrom (getSection (loadSourcesLoose st) n) P))) n = P := by
    show mapTo (getSection (loadSourcesLoose (some _)) n) NewIDPAccount = P
    rw [loadSourcesLoose, Option.getD_some, getSection_setSection_same, mapTo_reflectFrom]
  rw [LoadVerifyIDPAccount, hload, if_neg hne]

theorem validated_profile_found_witness :
    acctPing ≠ NewIDPAccount ∧
    LoadVerifyIDPAccount (some [("test", reflectFrom [] acctPing)]) "test"
      = Except.ok acctPing :=
  ⟨(validated_profile_found (fun _ => true) none "test" acctPing (by decide)).1,
   (validated_profile_found (fun _ => true) none "test" acctPing (by decide)).2
     (some [("test", reflectFrom [] acctPing)]) rfl⟩

/-- C7: `NewConfigManager` with an empty path binds the manager to the default
path with the tilde expanded to the home directory; with a non-empty path it
uses that path verbatim after tilde expansion; it fails, with the I/O error
kind, exactly when the path it uses needs the home directory (leading tilde)
and home-directory resolution fails.  The function reads `home` and
`configFile` only: it takes no file state at all, so it never touches the
configuration file. -/
theorem newConfigManager_paths (home : Option String) (configFile : String) :
    (∀ h, home = some h → configFile = "" →
      NewConfigManager home configFile
        = Except.ok { configPath := h ++ "/.saml2aws" }) ∧
    (home = none → configFile = "" →
      NewConfigManager home configFile
        = Except.error (CfgError.ioError "unable to determine home directory")) ∧
    (configFile ≠ "" → hasTilde configFile = false →
      NewConfigManager home configFile = Except.ok { configPath := configFile }) ∧
    (∀ h, home = some h → configFile ≠ "" → hasTilde configFile = true →
      NewConfigManager home configFile
        = Except.ok { configPath := h ++ configFile.drop 1 }) ∧
    ((∃ e, NewConfigManager home configFile = Except.error e) ↔
      (hasTilde (if configFile = "" then DefaultConfigPath else configFile) = true
        ∧ home = none)) ∧
    (∀ e, NewConfigManager home configFile = Except.error e →
      e = CfgError.ioError "unable to determine home directory") := by
  have htilde : hasTilde DefaultConfigPath = true := by decide
  have hdrop : DefaultConfigPath.drop 1 = "/.saml2aws" := by decide
  refine ⟨?_, ?_, ?_, ?_, ?_, ?_⟩
  · intro h hh hc
    subst hh; subst hc
    simp [NewConfigManager, homedirExpand, htilde, hdrop]
  · intro hh hc
    subst hh; subst hc
    simp [NewConfigManager, homedirExpand, htilde]
  · intro hc hs
    simp [NewConfigManager, homedirExpand, hc, hs]
  · intro h hh hc hs
    subst hh
    simp [NewConfigManager, homedirExpand, hc, hs]
  · constructor
    · rintro ⟨e, he⟩
      by_cases hc : configFile = "" <;>
        rcases home with _ | h <;>
          by_cases hs : hasTilde configFile = true <;>
            simp_all [NewConfigManager, homedirExpand, htilde]
    · rintro ⟨hs, hh⟩
      subst hh
      by_cases hc : configFile = "" <;>
        simp_all [NewConfigManager, homedirExpand, htilde]
  · intro e he
    by_cases hc : configFile = "" <;>
      rcases home with _ | h <;>
        by_cases hs : hasTilde configFile = true <;>
          simp_all [NewConfigManager, homedirExpand, htilde]

theorem newConfigManager_paths_witness :
    NewConfigManager (some "/home/user") ""
      = Except.ok { configPath := "/home/user" ++ "/.saml2aws" } ∧
    NewConfigManager (some "/home/user") "/etc/saml2aws.ini"
      = Except.ok { configPath := "/etc/saml2aws.ini" } ∧
    NewConfigManager none ""
      = Except.error (CfgError.ioError "unable to determine home directory") :=
  ⟨(newConfigManager_paths (some "/home/user") "").1 "/home/user" rfl rfl,
   (newConfigManager_paths (some "/home/user") "/etc/saml2aws.ini").2.2.1
     (by decide) (by decide),
   (newConfigManager_paths none "").2.1 rfl rfl⟩

/-- The string `pat` occurs as a contiguous substring of `s`. -/
def occursIn (pat s : String) : Prop := ∃ p q, s = p ++ (pat ++ q)

theorem strAppend_empty (s : String) : s ++ "" = s := by
  cases s
  show String.mk _ = String.mk _
  simp [String.append]

theorem occursIn_self (pat : String) : occursIn pat pat :=
  ⟨"", "", by rw [strAppend_empty]; rfl⟩

theorem occursIn_append_left (pat s t : String) (h : occursIn pat s) :
    occursIn pat (s ++ t) := by
  obtain ⟨p, q, hpq⟩ := h
  exact ⟨p, q ++ t, by rw [hpq, strAppend_assoc, strAppend_assoc]⟩

theorem occursIn_append_right (pat s t : String) (h : occursIn pat t) :
    occursIn pat (s ++ t) := by
  obtain ⟨p, q, hpq⟩ := h
  exact ⟨s ++ p, q, by rw [hpq, strAppend_assoc]⟩

/-- C9 counterexample: two accounts that differ only in `timeout` render to the
same string under `IDPAccountString`, so the rendered summary does not contain
all of the account's fields — the `timeout` field is omitted from the output. -/
theorem render_omits_timeout :
    ({ acctPing with timeout := 42 } : IDPAccount).timeout ≠ acctPing.timeout ∧
    ({ acctPing with timeout := 42 } : IDPAccount) ≠ acctPing ∧
    IDPAccountString { acctPing with timeout := 42 } = IDPAccountString acctPing :=
  ⟨by decide, by decide, rfl⟩

/-- C9 amended: `IDPAccountString` is a pure function of the account and its
multi-line output contains every field except `timeout`: the URL, username,
provider, MFA, skip-verify flag, AWS URN, session duration, profile and role
ARN always occur in the output; when and only when the provider is `OneLogin`
the output additionally includes the block with `appID` and `subdomain` (for
any other provider, `appID` and `subdomain` do not influence the output at
all); the `timeout` field never influences the output. -/
theorem render_contains_fields (ia : IDPAccount) :
    occursIn ia.url (IDPAccountString ia) ∧
    occursIn ia.username (IDPAccountString ia) ∧
    occursIn ia.provider (IDPAccountString ia) ∧
    occursIn ia.mfa (IDPAccountString ia) ∧
    occursIn (if ia.skipVerify then "true" else "false") (IDPAccountString ia) ∧
    occursIn ia.amazonWebservicesURN (IDPAccountString ia) ∧
    occursIn (toString ia.sessionDuration) (IDPAccountString ia) ∧
    occursIn ia.profile (IDPAccountString ia) ∧
    occursIn ia.roleARN (IDPAccountString ia) ∧
    (ia.provider = "OneLogin" →
      occursIn ("\n  AppID: " ++ ia.appID ++ "\n  Subdomain: " ++ ia.subdomain)
        (IDPAccountString ia)) ∧
    (ia.provider ≠ "OneLogin" → ∀ b c,
      IDPAccountString { ia with appID := b, subdomain := c } = IDPAccountString ia) ∧
    (∀ t, IDPAccountString { ia with timeout := t } = IDPAccountString ia) := by
  refine ⟨?_, ?_, ?_, ?_, ?_, ?_, ?_, ?_, ?_, ?_, ?_, ?_⟩
  · simp only [IDPAccountString]
    repeat first
      | exact occursIn_append_right _ _ _ (occursIn_self _)
      | apply occursIn_append_left
  · simp only [IDPAccountString]
    repeat first
      | exact occursIn_append_right _ _ _ (occursIn_self _)
      | apply occursIn_append_left
  · simp only [IDPAccountString]
    repeat first
      | exact occursIn_append_right _ _ _ (occursIn_self _)
      | apply occursIn_append_left
  · simp only [IDPAccountString]
    repeat first
      | exact occursIn_append_right _ _ _ (occursIn_self _)
      | apply occursIn_append_left
  · simp only [IDPAccountString]
    repeat first
      | exact occursIn_append_right _ _ _ (occursIn_self _)
      | apply occursIn_append_left
  · simp only [IDPAccountString]
    repeat first
      | exact occursIn_append_right _ _ _ (occursIn_self _)
      | apply occursIn_append_left
  · simp only [IDPAccountString]
    repeat first
      | exact occursIn_append_right _ _ _ (occursIn_self _)
      | apply occursIn_append_left
  · simp only [IDPAccountString]
    repeat first
      | exact occursIn_append_right _ _ _ (occursIn_self _)
      | apply occursIn_append_left
  · simp only [IDPAccountString]
    repeat first
      | exact occursIn_append_right _ _ _ (occursIn_self _)
      | apply occursIn_append_left
  · intro h
    simp only [IDPAccountString, h, if_pos]
    repeat first
      | exact occursIn_append_right _ _ _ (occursIn_self _)
      | apply occursIn_append_left
  · intro h b c
    simp [IDPAccountString, h]
  · intro t
    simp [IDPAccountString]

/-- A concrete OneLogin account, used as input of the render witness. -/
def acctOneLogin : IDPAccount :=
  { NewIDPAccount with provider := "OneLogin", appID := "123456", subdomain := "acme",
                       url := "https://id.example.com", mfa := "Auto" }

theorem render_contains_fields_witness :
    occursIn ("\n  AppID: " ++ "123456" ++ "\n  Subdomain: " ++ "acme")
      (IDPAccountString acctOneLogin) ∧
    IDPAccountString { acctPing with appID := "x", subdomain := "y" }
      = IDPAccountString acctPing ∧
    IDPAccountString { acctPing with timeout := 99 } = IDPAccountString acctPing :=
  ⟨(render_contains_fields acctOneLogin).2.2.2.2.2.2.2.2.2.1 rfl,
   (render_contains_fields acctPing).2.2.2.2.2.2.2.2.2.2.1 (by decide) "x" "y",
   (render_contains_fields acctPing).2.2.2.2.2.2.2.2.2.2.2 99⟩
